import Mathlib

/-!
Verification of the directory-tree normalization engine of dan-lab-to-nwb
(src/dan_lab_to_nwb/huang_2025_tdt/reorganize_data.py and
src/dan_lab_to_nwb/download_utils/unorganize_data.py).

Strings are modelled as lists of characters (Python str), directory trees as
an inductive type of entries, and fallible filesystem operations as Except
values where an error stands for a raised OSError/PermissionError that the
modelled code does not catch.  Each Lean definition is a shallow embedding of
the correspondingly named Python function; listing order of a directory is
modelled as the order of the children list, and an os.rename or shutil.move
appends the moved entry at the end of the destination listing (real listings
are unordered, so only multiset content is meaningful; theorems that compare
listings do so on inputs where the order is forced).
-/

/-- Python str, modelled as a list of characters. -/
abbrev NameT := List Char

/-- Python str.replace with a fuel argument (fuel is the length of the
scanned string, which bounds the number of steps since the pattern is
non-empty at every call site). -/
def replaceAllFuel : Nat → NameT → NameT → NameT → NameT
  | 0, _, _, s => s
  | _ + 1, _, _, [] => []
  | k + 1, pat, rep, c :: rest =>
    if pat.isPrefixOf (c :: rest) then
      rep ++ replaceAllFuel k pat rep ((c :: rest).drop pat.length)
    else
      c :: replaceAllFuel k pat rep rest

/-- Python s.replace(pat, rep): replaces every non-overlapping occurrence of
pat in s, scanning left to right.  (For an empty pattern Python interleaves
rep between all characters; no call site uses an empty pattern, and this
model returns s unchanged in that case.) -/
def replaceAll (pat rep s : NameT) : NameT :=
  if pat.isEmpty then s else replaceAllFuel s.length pat rep s

/-- Python (pat in s): substring test. -/
def containsSub (pat : NameT) : NameT → Bool
  | [] => pat.isEmpty
  | c :: rest => pat.isPrefixOf (c :: rest) || containsSub pat rest

/-- Python s.strip(under): drop leading and trailing underscore characters. -/
def stripUS (s : NameT) : NameT :=
  ((s.dropWhile (fun c => c = '_')).reverse.dropWhile (fun c => c = '_')).reverse

/-- Index of the last dot of a filename, if any. -/
def lastDotPos (n : NameT) : Option Nat :=
  match n.reverse.findIdx? (fun c => c = '.') with
  | none => none
  | some j => some (n.length - 1 - j)

/-- Python pathlib stem: the name without its final suffix; a leading or
trailing dot does not start a suffix. -/
def pyStem (n : NameT) : NameT :=
  match lastDotPos n with
  | none => n
  | some i => if 0 < i && i < n.length - 1 then n.take i else n

/-- Reserved shadow prefix for Mac system files. -/
def hiddenPre : NameT := "._".toList

/-- Python name.startswith(shadow prefix). -/
def isHidden (n : NameT) : Bool := hiddenPre.isPrefixOf n

/-- Marker-file extension. -/
def tsqExt : NameT := ".tsq".toList

/-- Does a filename match the glob pattern for marker files (name ends in
the marker extension)?  pathlib glob does not special-case hidden files. -/
def endsTsq (n : NameT) : Bool := tsqExt.isSuffixOf n

/-- Temporary-rename prefix used by step 1 of the forward transformer. -/
def tempPre : NameT := "temp_".toList

/-- Python f-string temp_{name}. -/
def tempName (n : NameT) : NameT := tempPre ++ n

/-- A filesystem entry: a plain file, a readable directory with its listing,
or a directory whose listing raises PermissionError/OSError. -/
inductive Entry where
  | file (name : NameT)
  | dir (name : NameT) (children : List Entry)
  | denied (name : NameT)

/-- Name of an entry. -/
def Entry.name : Entry → NameT
  | .file n => n
  | .dir n _ => n
  | .denied n => n

/-- Python item.is_dir(): a stat call that succeeds even when the listing of
the directory is not readable. -/
def Entry.isDir : Entry → Bool
  | .file _ => false
  | .dir _ _ => true
  | .denied _ => true

/-- Python item.is_file(). -/
def Entry.isFile : Entry → Bool
  | .file _ => true
  | .dir _ _ => false
  | .denied _ => false

/-- Rebuild an entry under a new name (os.rename within one directory). -/
def Entry.withName : Entry → NameT → Entry
  | .file _, m => .file m
  | .dir _ cs, m => .dir m cs
  | .denied _, m => .denied m

/-- Python folder.iterdir(): the listing, or a raised error for a denied
directory (and NotADirectoryError for a plain file). -/
def Entry.listing : Entry → Except Unit (List Entry)
  | .dir _ cs => .ok cs
  | _ => .error ()

/-- Find the entry with a given name in a listing (first match). -/
def findEntry : List Entry → NameT → Option Entry
  | [], _ => none
  | e :: rest, n => if e.name = n then some e else findEntry rest n

/-- Remove the first entry with a given name from a listing. -/
def removeEntry : List Entry → NameT → List Entry
  | [], _ => []
  | e :: rest, n => if e.name = n then rest else e :: removeEntry rest n

/-- Replace the first entry with a given name in a listing. -/
def replaceEntry : List Entry → NameT → Entry → List Entry
  | [], _, _ => []
  | e :: rest, n, x => if e.name = n then x :: rest else e :: replaceEntry rest n x

/-- Python os.rename of the entry src to dst inside one directory listing:
raises if src is missing; replaces dst when dst is a file and src is a file,
or when dst is an empty directory and src is a directory; raises when dst is
occupied by anything else (IsADirectoryError / NotADirectoryError /
ENOTEMPTY; a denied destination directory is modelled as non-empty). -/
def renameEntry (l : List Entry) (src dst : NameT) : Except Unit (List Entry) :=
  match findEntry l src with
  | none => .error ()
  | some e =>
    if src = dst then .ok l
    else
      match findEntry l dst with
      | none => .ok (removeEntry l src ++ [e.withName dst])
      | some d =>
        match e, d with
        | .file _, .file _ => .ok (removeEntry (removeEntry l dst) src ++ [e.withName dst])
        | .dir _ _, .dir _ [] => .ok (removeEntry (removeEntry l dst) src ++ [e.withName dst])
        | _, _ => .error ()

/-- Python Path.mkdir(): raises FileExistsError when the name is taken. -/
def mkdirIn (l : List Entry) (n : NameT) : Except Unit (List Entry) :=
  match findEntry l n with
  | some _ => .error ()
  | none => .ok (l ++ [.dir n []])

/-- Legacy identifier substring BBB8 (special case in make_neo_compatible). -/
def bbb8Sub : NameT := "BBB8".toList

/-- Replacement identifier M008. -/
def m008Sub : NameT := "M008".toList

/-- Superfluous parenthetical suffix removed by a special case. -/
def par0725Sub : NameT := "(0725)".toList

/-- Misnamed identifier fixed by the M376_M501 special case. -/
def m374Sub : NameT := "M374_M501".toList

/-- Correct identifier for the M376_M501 special case. -/
def m376Sub : NameT := "M376_M501".toList

/-- Folder name that triggers the M376_M501 special case. -/
def m376FolderName : NameT := "M376_M501-251001-071000".toList

/-- is_neo_compatible as defined in reorganize_data.py: exactly one
non-hidden child directory (the session folder), which contains exactly one
non-hidden child directory whose name equals the outer folder's name.  This
copy performs its two listings without any try/except, so a listing error
propagates (modelled as Except.error). -/
def is_neo_compatible_reorg (e : Entry) : Except Unit Bool :=
  match e with
  | .dir nm cs =>
    match cs.filter (fun c => c.isDir && !isHidden c.name) with
    | [session] =>
      match session with
      | .dir _ scs =>
        match scs.filter (fun c => c.isDir && !isHidden c.name) with
        | [d1] => .ok (decide (d1.name = nm))
        | _ => .ok false
      | _ => .error ()
    | _ => .ok false
  | _ => .error ()

/-- is_neo_compatible as defined in unorganize_data.py: the same structural
check, but both listings are wrapped in try/except and a listing error
returns False. -/
def is_neo_compatible_unorg (e : Entry) : Bool :=
  match e with
  | .dir nm cs =>
    match cs.filter (fun c => c.isDir && !isHidden c.name) with
    | [session] =>
      match session with
      | .dir _ scs =>
        match scs.filter (fun c => c.isDir && !isHidden c.name) with
        | [d1] => decide (d1.name = nm)
        | _ => false
      | _ => false
    | _ => false
  | _ => false

/-- extract_session_name from reorganize_data.py, taking the precomputed
stem of the .tsq file: stem.replace(underscore + folder, empty).replace(
folder, empty).strip(underscore).  Python str.replace replaces every
occurrence, not only the first. -/
def extract_session_name (stem folderName : NameT) : NameT :=
  stripUS (replaceAll folderName [] (replaceAll ('_' :: folderName) [] stem))

/-- Modelled from the spec (section 4.2 SessionNameExtractor), for
comparison with the source's extract_session_name: take the stem, remove
the FIRST occurrence of the owner directory name together with the adjacent
separator characters, and trim leading/trailing separators. -/
def removeFirstOcc (owner : NameT) : NameT → Option (NameT × NameT)
  | [] => if owner.isEmpty then some ([], []) else none
  | c :: rest =>
    if owner.isPrefixOf (c :: rest) then some ([], (c :: rest).drop owner.length)
    else
      match removeFirstOcc owner rest with
      | some (b, a) => some (c :: b, a)
      | none => none

/-- Modelled from the spec (section 4.2): first-occurrence removal with
adjacent separators, then trimming.  Used only to compare the spec's wording
of SessionNameExtractor with the source's replace-all implementation. -/
def extract_session_name_spec (stem owner : NameT) : NameT :=
  match removeFirstOcc owner stem with
  | none => stripUS stem
  | some (b, a) =>
    let b1 := if b.getLast? = some '_' then b.dropLast else b
    let a1 := if a.head? = some '_' then a.tail else a
    stripUS (b1 ++ a1)

/-- is_innermost_of_neo_structure on a reversed path (deepest name first):
the grandparent exists and carries the same name as the folder itself.  A
grandparent above the scanned root is outside the model and treated as not
matching. -/
def isInnermostRP (rp : List NameT) : Bool :=
  match rp with
  | f :: _ :: g :: _ => decide (g = f)
  | _ => false

/-- Recursive body of find_tdt_folders.  The gas argument stands for
max_depth + 1 - depth, so gas = 0 exactly when depth > max_depth and the
python code returns without scanning.  rp is the reversed path of the
visited folder (deepest name first, root name last).  A PermissionError
(denied listing) abandons the branch; a folder whose listing contains a
marker file is reported (as its grandparent when it is the innermost part of
an already organized structure) and not descended into; otherwise all
non-hidden child directories are scanned. -/
def searchGo : Nat → Entry → List NameT → List (List NameT)
  | 0, _, _ => []
  | g + 1, e, rp =>
    match e with
    | .file _ => []
    | .denied _ => []
    | .dir _ cs =>
      if cs.any (fun c => endsTsq c.name) then
        if isInnermostRP rp then [rp.drop 2] else [rp]
      else
        ((cs.filter (fun c => c.isDir && !isHidden c.name)).map
          (fun c => searchGo g c (c.name :: rp))).flatten

/-- Deduplication by resolved path (the seen_folders set): keep the first
occurrence of every path. -/
def dedupGo (seen : List (List NameT)) : List (List NameT) → List (List NameT)
  | [] => []
  | p :: rest => if p ∈ seen then dedupGo seen rest else p :: dedupGo (p :: seen) rest

/-- find_tdt_folders root max_depth, returning reversed paths (deepest name
first) of the reported folders. -/
def find_tdt_folders (root : Entry) (maxDepth : Nat) : List (List NameT) :=
  dedupGo [] (searchGo (maxDepth + 1) root [root.name])

/-- Identifies one of the three mutation steps of the forward transformer
that follow the initial rename-to-temporary: creating the new outer
directory, creating the session middle directory, and renaming the
temporary folder into the inner position. -/
inductive FwdStep where
  | mkOuter
  | mkSession
  | moveInner
deriving DecidableEq

/-- Fault injection helper: forces the given step to raise. -/
def stepRun (fault : Option FwdStep) (s : FwdStep) (x : Except (List Entry) (List Entry))
    (state : List Entry) : Except (List Entry) (List Entry) :=
  if fault = some s then .error state else x

/-- Python session_folder.mkdir() where session_folder is a child path of the
directory named outer inside the listing l. -/
def mkdirInChild (l : List Entry) (outer session : NameT) : Except Unit (List Entry) :=
  match findEntry l outer with
  | some (.dir onm cs) =>
    match mkdirIn cs session with
    | .error e => .error e
    | .ok cs1 => .ok (replaceEntry l outer (.dir onm cs1))
  | _ => .error ()

/-- Python temp_path.rename(session_folder / name): move the directory named
tn from the listing l into the child path outer/session under the name
inner, with os.rename destination semantics. -/
def moveTempIn (l : List Entry) (tn outer session inner : NameT) : Except Unit (List Entry) :=
  match findEntry l tn with
  | some (.dir _ tcs) =>
    match findEntry (removeEntry l tn) outer with
    | some (.dir onm cs) =>
      match findEntry cs session with
      | some (.dir snm scs) =>
        match findEntry scs inner with
        | none =>
          .ok (replaceEntry (removeEntry l tn) outer
            (.dir onm (replaceEntry cs session (.dir snm (scs ++ [.dir inner tcs])))))
        | some (.dir _ []) =>
          .ok (replaceEntry (removeEntry l tn) outer
            (.dir onm (replaceEntry cs session
              (.dir snm (removeEntry scs inner ++ [.dir inner tcs])))))
        | some _ => .error ()
      | _ => .error ()
    | _ => .error ()
  | _ => .error ()

/-- The except-handler of make_neo_compatible: if the temporary sibling
still exists, attempt to rename it back to the original path; a failure of
that rename is itself caught and leaves the tree as it is. -/
def restoreTemp (p : List Entry) (tn nm : NameT) : List Entry :=
  match findEntry p tn with
  | none => p
  | some _ =>
    match renameEntry p tn nm with
    | .ok q => q
    | .error _ => p

/-- The try/except block of make_neo_compatible (steps 1 to 3 of the code,
steps 1 to 4 of the spec), over the listing of the parent directory, with an
optional injected fault at one of the three steps after the initial rename.
Every primitive either fully applies or raises without mutating, so the
state at the moment an exception is raised is the state before the failed
step; the handler then runs restoreTemp on that state. -/
def fwdSteps (parent : List Entry) (nm session : NameT) (fault : Option FwdStep) :
    List Entry :=
  let tn := tempName nm
  let body : Except (List Entry) (List Entry) :=
    match renameEntry parent nm tn with
    | .error _ => .error parent
    | .ok p1 =>
      match stepRun fault .mkOuter
          (match mkdirIn p1 nm with | .error _ => .error p1 | .ok q => .ok q) p1 with
      | .error s => .error s
      | .ok p2 =>
        match stepRun fault .mkSession
            (match mkdirInChild p2 nm session with
             | .error _ => .error p2 | .ok q => .ok q) p2 with
        | .error s => .error s
        | .ok p3 =>
          match stepRun fault .moveInner
              (match moveTempIn p3 tn nm session nm with
               | .error _ => .error p3 | .ok q => .ok q) p3 with
          | .error s => .error s
          | .ok p4 => .ok p4
  match body with
  | .ok p => p
  | .error s => restoreTemp s tn nm

/-- The loop renaming every file of the folder listing whose name matched
the glob snapshot (targets), replacing pat by rep in its name; a rename onto
an existing file replaces it, a rename onto a directory raises and the error
propagates out of make_neo_compatible (the loop is outside the try block). -/
def renameFilesGo (cs : List Entry) (pat rep : NameT) :
    List NameT → Except Unit (List Entry)
  | [] => .ok cs
  | t :: rest =>
    match findEntry cs t with
    | some (.file _) =>
      match renameEntry cs t (replaceAll pat rep t) with
      | .error e => .error e
      | .ok cs1 => renameFilesGo cs1 pat rep rest
    | _ => renameFilesGo cs pat rep rest

/-- Python: for file_path in tdt_folder.glob(star pat star): if is_file():
rename replacing pat by rep.  The glob snapshot is taken before the loop. -/
def renameMatchingFiles (l : List Entry) (folderNm pat rep : NameT) :
    Except Unit (List Entry) :=
  match findEntry l folderNm with
  | some (.dir fnm cs) =>
    match renameFilesGo cs pat rep
        ((cs.filter (fun c => containsSub pat c.name)).map Entry.name) with
    | .error e => .error e
    | .ok cs1 => .ok (replaceEntry l folderNm (.dir fnm cs1))
  | _ => .error ()

/-- The four ad hoc special cases at the top of make_neo_compatible, run
before classification and outside the try block, threading the possibly
renamed folder name.  Any raise here propagates. -/
def applySpecials (parent : List Entry) (nm : NameT) :
    Except Unit (List Entry × NameT) :=
  let s1 : Except Unit (List Entry × NameT) :=
    if containsSub bbb8Sub nm then
      match renameEntry parent nm (replaceAll bbb8Sub m008Sub nm) with
      | .error e => .error e
      | .ok p => .ok (p, replaceAll bbb8Sub m008Sub nm)
    else .ok (parent, nm)
  match s1 with
  | .error e => .error e
  | .ok (p1, n1) =>
    match (if containsSub m008Sub n1 then renameMatchingFiles p1 n1 bbb8Sub m008Sub
           else .ok p1) with
    | .error e => .error e
    | .ok p2 =>
      let s3 : Except Unit (List Entry × NameT) :=
        if containsSub par0725Sub n1 then
          match renameEntry p2 n1 (replaceAll par0725Sub [] n1) with
          | .error e => .error e
          | .ok p => .ok (p, replaceAll par0725Sub [] n1)
        else .ok (p2, n1)
      match s3 with
      | .error e => .error e
      | .ok (p3, n2) =>
        match (if n2 = m376FolderName then renameMatchingFiles p3 n2 m374Sub m376Sub
               else .ok p3) with
        | .error e => .error e
        | .ok p4 => .ok (p4, n2)

/-- Classification and transformation part of make_neo_compatible, after the
special cases: skip when already compatible (a listing error raised by the
reorganize_data.py classifier propagates), find the non-hidden marker files,
skip when there are none, extract the session name from the first one, skip
when it is empty, otherwise run the guarded transformation steps. -/
def afterSpecials (parent : List Entry) (nm : NameT) : Except Unit (List Entry) :=
  match findEntry parent nm with
  | none => .error ()
  | some folder =>
    match is_neo_compatible_reorg folder with
    | .error e => .error e
    | .ok true => .ok parent
    | .ok false =>
      match folder with
      | .dir _ cs =>
        match cs.filter (fun e => endsTsq e.name && !isHidden e.name) with
        | [] => .ok parent
        | tf :: _ =>
          let sname := extract_session_name (pyStem tf.name) nm
          if sname = [] then .ok parent
          else .ok (fwdSteps parent nm sname none)
      | _ => .error ()

/-- make_neo_compatible from reorganize_data.py, acting on the listing of
the parent directory of the folder named nm: skip Mac shadow folders, apply
the legacy special cases, skip already-compatible folders and folders with
no marker file or no extractable session name, and otherwise perform the
temporary rename, skeleton creation and final move with the rollback
handler.  An exception raised outside the try block propagates as an
Except.error to the caller (reorganize_data's loop). -/
def make_neo_compatible (parent : List Entry) (nm : NameT) : Except Unit (List Entry) :=
  if isHidden nm then .ok parent
  else
    match applySpecials parent nm with
    | .error e => .error e
    | .ok (p, nm1) => afterSpecials p nm1

/-- Result of unorganize_folder: the directory after the attempt, the
returned success flag, the number of collision warnings emitted by the move
loop, and whether the removal of the emptied nested directories failed (a
non-fatal warning). -/
structure UnorgResult where
  dir : Entry
  ok : Bool
  collisions : Nat
  rmdirFailed : Bool

/-- The move loop of unorganize_folder: for each item of the inner data
folder in listing order, skip shadow entries, skip (with a collision
warning) entries whose name already exists at the top level, and move the
rest up to the top level (appended to the top listing).  Returns the new top
listing, the items left behind in the data folder, and the number of
collision warnings. -/
def moveLoop : List Entry → List Entry → List Entry × List Entry × Nat
  | top, [] => (top, [], 0)
  | top, i :: rest =>
    if isHidden i.name then
      ((moveLoop top rest).1, i :: (moveLoop top rest).2.1, (moveLoop top rest).2.2)
    else if (findEntry top i.name).isSome then
      ((moveLoop top rest).1, i :: (moveLoop top rest).2.1, (moveLoop top rest).2.2 + 1)
    else
      moveLoop (top ++ [i]) rest

/-- unorganize_folder from unorganize_data.py: check the nested structure
(returning False on an unexpected shape or on a listing error caught by the
surrounding try/except), move every non-hidden non-colliding item of the
inner data folder up to the top level, then attempt to rmdir the data folder
and the session folder; an rmdir failure (directory not empty) is only a
warning and the function still returns True. -/
def unorganize_folder (d : Entry) : UnorgResult :=
  match d with
  | .dir nm cs =>
    match cs.filter (fun c => c.isDir && !isHidden c.name) with
    | [Entry.dir snm scs] =>
      match scs.filter (fun c => c.isDir && !isHidden c.name) with
      | [Entry.dir dnm dcs] =>
        if dnm = nm then
          let top1 := (moveLoop cs dcs).1
          let remaining := (moveLoop cs dcs).2.1
          let coll := (moveLoop cs dcs).2.2
          if remaining.isEmpty then
            if (removeEntry scs dnm).isEmpty then
              ⟨.dir nm (removeEntry top1 snm), true, coll, false⟩
            else
              ⟨.dir nm (replaceEntry top1 snm (.dir snm (removeEntry scs dnm))),
                true, coll, true⟩
          else
            ⟨.dir nm (replaceEntry top1 snm
                (.dir snm (replaceEntry scs dnm (.dir dnm remaining)))),
              true, coll, true⟩
        else ⟨d, false, 0, false⟩
      | [Entry.denied _] => ⟨d, false, 0, false⟩
      | _ => ⟨d, false, 0, false⟩
    | [Entry.denied _] => ⟨d, false, 0, false⟩
    | _ => ⟨d, false, 0, false⟩
  | _ => ⟨d, false, 0, false⟩

/-- The per-setup loop of reorganize_data, specialized to candidate folders
that are siblings inside one parent listing: make_neo_compatible is called
on each discovered folder in order, and an exception it raises (from code
outside its try block) propagates and aborts the remaining iterations. -/
def reorganize_loop (parent : List Entry) : List NameT → Except Unit (List Entry)
  | [] => .ok parent
  | n :: rest =>
    match make_neo_compatible parent n with
    | .error e => .error e
    | .ok p => reorganize_loop p rest

/-- The per-setup loop of unorganize_data: unorganize_folder never lets an
exception escape, so every discovered folder is processed. -/
def unorganize_loop (folders : List Entry) : List UnorgResult :=
  folders.map unorganize_folder

/-- The summary counters of unorganize_data: unorganized folders over found
folders. -/
def unorganize_summary (folders : List Entry) : Nat × Nat :=
  (((unorganize_loop folders).filter (fun r => r.ok)).length, folders.length)

/-- The round trip of one directory named nm inside a parent listing:
make_neo_compatible, then unorganize_folder applied to the entry now found
at the original path (a missing entry makes unorganize_folder's first
listing raise, which its handler turns into a False return with no
mutation). -/
def roundTrip (parent : List Entry) (nm : NameT) : Except Unit (List Entry × Bool) :=
  match make_neo_compatible parent nm with
  | .error e => .error e
  | .ok p =>
    match findEntry p nm with
    | none => .ok (p, false)
    | some d =>
      match unorganize_folder d with
      | r => .ok (replaceEntry p nm r.dir, r.ok)

/-- The temporary name differs from the original name (it is five characters
longer). -/
theorem tempName_ne (n : NameT) : tempName n ≠ n := by
  intro h
  have hl : (tempName n).length = n.length := congrArg List.length h
  rw [tempName, List.length_append] at hl
  have h5 : tempPre.length = 5 := rfl
  omega

/-- A lookup misses exactly when no entry has the name. -/
theorem findEntry_eq_none (l : List Entry) (n : NameT) :
    findEntry l n = none ↔ ∀ e ∈ l, e.name ≠ n := by
  induction l with
  | nil => simp [findEntry]
  | cons e rest ih =>
    simp only [findEntry]
    by_cases h : e.name = n
    · simp [h]
    · simp [h, ih]

/-- Lookup distributes over append. -/
theorem findEntry_append (l1 l2 : List Entry) (n : NameT) :
    findEntry (l1 ++ l2) n =
      match findEntry l1 n with
      | some e => some e
      | none => findEntry l2 n := by
  induction l1 with
  | nil => simp [findEntry]
  | cons e rest ih =>
    simp only [List.cons_append, findEntry]
    by_cases h : e.name = n
    · simp [h]
    · simp [h, ih]

/-- When every item of the inner folder is non-hidden, absent from the top
listing, and the item names are distinct, the move loop moves everything,
leaves nothing behind, and warns zero times. -/
theorem moveLoop_all (top items : List Entry)
    (h1 : ∀ i ∈ items, isHidden i.name = false)
    (h2 : ∀ i ∈ items, findEntry top i.name = none)
    (h3 : (items.map Entry.name).Nodup) :
    moveLoop top items = (top ++ items, [], 0) := by
  induction items generalizing top with
  | nil => simp [moveLoop]
  | cons i rest ih =>
    have hi1 : isHidden i.name = false := h1 i (by simp)
    have hi2 : findEntry top i.name = none := h2 i (by simp)
    rw [List.map_cons, List.nodup_cons] at h3
    have hrec := ih (top ++ [i]) (fun j hj => h1 j (by simp [hj]))
      (fun j hj => by
        rw [findEntry_append, h2 j (by simp [hj])]
        simp only [findEntry]
        have hne : i.name ≠ j.name := by
          intro hcontra
          exact h3.1 (hcontra ▸ List.mem_map_of_mem Entry.name hj)
        simp [hne])
      h3.2
    simp only [moveLoop, hi1, hi2, Bool.false_eq_true, if_false, Option.isSome_none, hrec]
    simp

/-- A glob rename loop over a folder whose files never contain the pattern
is a no-op. -/
theorem renameMatchingFiles_noop (nm pat rep : NameT) (files : List Entry)
    (h : ∀ e ∈ files, containsSub pat e.name = false) :
    renameMatchingFiles [Entry.dir nm files] nm pat rep = .ok [Entry.dir nm files] := by
  have hf : files.filter (fun c => containsSub pat c.name) = [] :=
    List.filter_eq_nil_iff.mpr (fun a ha => by simp [h a ha])
  have hfind : findEntry [Entry.dir nm files] nm = some (Entry.dir nm files) := by
    simp [findEntry, Entry.name]
  rw [renameMatchingFiles, hfind]
  simp only [hf, List.map_nil, renameFilesGo]
  simp [replaceEntry, Entry.name]

/-- The legacy special cases do nothing on a folder whose name avoids the
legacy substrings and whose children never contain the legacy file
patterns. -/
theorem applySpecials_noop (nm : NameT) (files : List Entry)
    (hb : containsSub bbb8Sub nm = false)
    (hp : containsSub par0725Sub nm = false)
    (hfb : ∀ e ∈ files, containsSub bbb8Sub e.name = false)
    (hfm : ∀ e ∈ files, containsSub m374Sub e.name = false) :
    applySpecials [Entry.dir nm files] nm = .ok ([Entry.dir nm files], nm) := by
  rw [applySpecials]
  simp only [hb, Bool.false_eq_true, if_false]
  by_cases hM : containsSub m008Sub nm = true
  · rw [if_pos hM, renameMatchingFiles_noop nm bbb8Sub m008Sub files hfb]
    simp only [hp, Bool.false_eq_true, if_false]
    by_cases h6 : nm = m376FolderName
    · rw [if_pos h6]
      rw [renameMatchingFiles_noop nm m374Sub m376Sub files hfm]
    · rw [if_neg h6]
  · rw [if_neg hM]
    simp only [hp, Bool.false_eq_true, if_false]
    by_cases h6 : nm = m376FolderName
    · rw [if_pos h6]
      rw [renameMatchingFiles_noop nm m374Sub m376Sub files hfm]
    · rw [if_neg h6]

/-- With no fault injected and a parent listing holding only the flat
folder, the guarded steps build exactly the required three-level nesting. -/
theorem fwdSteps_ok (nm s : NameT) (files : List Entry) :
    fwdSteps [Entry.dir nm files] nm s none =
      [Entry.dir nm [Entry.dir s [Entry.dir nm files]]] := by
  have h1 : tempName nm ≠ nm := tempName_ne nm
  have h2 : nm ≠ tempName nm := fun h => h1 h.symm
  simp [fwdSteps, renameEntry, findEntry, mkdirIn, mkdirInChild, moveTempIn,
    removeEntry, replaceEntry, Entry.name, Entry.withName, restoreTemp, stepRun, h1, h2]

/-- A listing that holds only plain files has no subdirectories. -/
theorem filter_dirs_of_files (files : List Entry)
    (hfile : ∀ e ∈ files, e.isFile = true) :
    files.filter (fun c => c.isDir && !isHidden c.name) = [] :=
  List.filter_eq_nil_iff.mpr (fun a ha => by
    have := hfile a ha
    cases a <;> simp_all [Entry.isFile, Entry.isDir])

/-- On a flat all-files folder with at least one non-hidden marker file and
a non-empty extracted session name, the classification stage dispatches to
the guarded transformation steps with that session name. -/
theorem afterSpecials_fwd (nm : NameT) (files : List Entry)
    (hfile : ∀ e ∈ files, e.isFile = true)
    (tf : Entry) (ts : List Entry)
    (htsq : files.filter (fun e => endsTsq e.name && !isHidden e.name) = tf :: ts)
    (hsn : extract_session_name (pyStem tf.name) nm ≠ []) :
    afterSpecials [Entry.dir nm files] nm =
      .ok (fwdSteps [Entry.dir nm files] nm
        (extract_session_name (pyStem tf.name) nm) none) := by
  have hfind : findEntry [Entry.dir nm files] nm = some (Entry.dir nm files) := by
    simp [findEntry, Entry.name]
  have hcompat : is_neo_compatible_reorg (Entry.dir nm files) = .ok false := by
    rw [is_neo_compatible_reorg]
    rw [filter_dirs_of_files files hfile]
  rw [afterSpecials, hfind]
  simp only [hcompat, htsq]
  rw [if_neg hsn]

/-- Shared forward lemma: on a parent listing holding exactly one flat
folder of plain files — with a non-hidden name free of the legacy-rule
substrings, children free of the legacy file patterns, at least one
non-hidden marker file, and a non-empty session name extracted from the
first marker — make_neo_compatible succeeds and produces exactly the
three-level nesting folder/session/folder around the original files. -/
theorem make_forward (nm : NameT) (files : List Entry)
    (hnh : isHidden nm = false)
    (hb : containsSub bbb8Sub nm = false)
    (hp : containsSub par0725Sub nm = false)
    (hfb : ∀ e ∈ files, containsSub bbb8Sub e.name = false)
    (hfm : ∀ e ∈ files, containsSub m374Sub e.name = false)
    (hfile : ∀ e ∈ files, e.isFile = true)
    (tf : Entry) (ts : List Entry)
    (htsq : files.filter (fun e => endsTsq e.name && !isHidden e.name) = tf :: ts)
    (hsn : extract_session_name (pyStem tf.name) nm ≠ []) :
    make_neo_compatible [Entry.dir nm files] nm =
      .ok [Entry.dir nm [Entry.dir (extract_session_name (pyStem tf.name) nm)
        [Entry.dir nm files]]] := by
  rw [make_neo_compatible, if_neg (by simp [hnh]), applySpecials_noop nm files hb hp hfb hfm]
  show afterSpecials [Entry.dir nm files] nm = _
  rw [afterSpecials_fwd nm files hfile tf ts htsq hsn, fwdSteps_ok]

/-- Inverting a freshly built three-level nesting whose inner files are all
non-hidden, distinct, and never named like the session folder moves every
file back up, removes the emptied inner and middle directories, and
succeeds with no collision warning. -/
theorem unorganize_nested (nm s : NameT) (files : List Entry)
    (hnh : isHidden nm = false) (hsh : isHidden s = false)
    (hfh : ∀ e ∈ files, isHidden e.name = false)
    (hns : ∀ e ∈ files, e.name ≠ s)
    (hnod : (files.map Entry.name).Nodup) :
    unorganize_folder (Entry.dir nm [Entry.dir s [Entry.dir nm files]]) =
      ⟨Entry.dir nm files, true, 0, false⟩ := by
  have hm : moveLoop [Entry.dir s [Entry.dir nm files]] files =
      ([Entry.dir s [Entry.dir nm files]] ++ files, [], 0) :=
    moveLoop_all _ files hfh
      (fun i hi => (findEntry_eq_none _ _).mpr (fun e he => by
        rw [List.mem_singleton] at he
        subst he
        show s ≠ i.name
        exact fun h => hns i hi h.symm))
      hnod
  simp [unorganize_folder, Entry.isDir, Entry.name, hsh, hnh, hm, removeEntry, findEntry]

/-- C1 (amended).  For every directory D holding only plain files — with at
least one non-hidden marker file, a successfully extracted (non-empty,
non-hidden) session name, distinct non-hidden file names none of which
equals the session name, and a name and files free of the legacy
special-case patterns (BBB8, the 0725 parenthetical, M374_M501) — running
make_neo_compatible and then unorganize_folder on D yields D back exactly:
the same flat directory with the same files, with the inverse transformer
reporting success. -/
theorem C1_round_trip_restores_flat (nm : NameT) (files : List Entry)
    (hnh : isHidden nm = false)
    (hb : containsSub bbb8Sub nm = false)
    (hp : containsSub par0725Sub nm = false)
    (hfb : ∀ e ∈ files, containsSub bbb8Sub e.name = false)
    (hfm : ∀ e ∈ files, containsSub m374Sub e.name = false)
    (hfile : ∀ e ∈ files, e.isFile = true)
    (hfh : ∀ e ∈ files, isHidden e.name = false)
    (hnod : (files.map Entry.name).Nodup)
    (tf : Entry) (ts : List Entry)
    (htsq : files.filter (fun e => endsTsq e.name && !isHidden e.name) = tf :: ts)
    (hsn : extract_session_name (pyStem tf.name) nm ≠ [])
    (hsh : isHidden (extract_session_name (pyStem tf.name) nm) = false)
    (hns : ∀ e ∈ files, e.name ≠ extract_session_name (pyStem tf.name) nm) :
    roundTrip [Entry.dir nm files] nm = .ok ([Entry.dir nm files], true) := by
  rw [roundTrip, make_forward nm files hnh hb hp hfb hfm hfile tf ts htsq hsn]
  have hfind : findEntry
      [Entry.dir nm [Entry.dir (extract_session_name (pyStem tf.name) nm)
        [Entry.dir nm files]]] nm =
      some (Entry.dir nm [Entry.dir (extract_session_name (pyStem tf.name) nm)
        [Entry.dir nm files]]) := by
    simp [findEntry, Entry.name]
  simp only [hfind, unorganize_nested nm _ files hnh hsh hfh hns hnod]
  simp [replaceEntry, Entry.name]

/-- Concrete folder name used by the round-trip witness. -/
def wNameM1 : NameT := "M1".toList

/-- Concrete marker file name used by the round-trip witness. -/
def wFileM1 : NameT := "S_M1.tsq".toList

/-- Witness for C1: a concrete flat folder M1 with marker file S_M1.tsq
(session name S) round-trips to itself. -/
theorem C1_round_trip_restores_flat_witness :
    roundTrip [Entry.dir wNameM1 [Entry.file wFileM1]] wNameM1 =
      .ok ([Entry.dir wNameM1 [Entry.file wFileM1]], true) :=
  C1_round_trip_restores_flat wNameM1 [Entry.file wFileM1]
    (by decide) (by decide) (by decide) (by decide) (by decide) (by decide)
    (by decide) (by decide) (Entry.file wFileM1) [] rfl (by decide) (by decide)
    (by decide)

/-- Folder name of the C1 counterexample (triggers the BBB8 legacy rule). -/
def cxNameBBB8 : NameT := "BBB8".toList

/-- Marker file of the C1 counterexample. -/
def cxFileBBB8 : NameT := "S_BBB8.tsq".toList

/-- Renamed folder name after the BBB8 legacy rule. -/
def cxNameM008 : NameT := "M008".toList

/-- Renamed marker file after the M008 legacy rule. -/
def cxFileM008 : NameT := "S_M008.tsq".toList

/-- Session name extracted in the C1 counterexample. -/
def cxSessionS : NameT := "S".toList

/-- Parent listing left behind by the failed round trip of the BBB8
counterexample: the directory was renamed to M008 and transformed there, so
nothing exists at the original path any more. -/
def cxBBB8After : List Entry :=
  [Entry.dir cxNameM008 [Entry.dir cxSessionS
    [Entry.dir cxNameM008 [Entry.file cxFileM008]]]]

/-- Counterexample to C1 as stated.  The flat directory BBB8 with the single
marker file S_BBB8.tsq is in Flat state, has a successfully extracted
session name (S), and no pre-existing name collision, yet the forward
transformer's legacy special case renames it to M008 before nesting it, so
the subsequent unorganize_folder on the original path finds nothing, returns
failure, and the original directory BBB8 with its file set is not restored
(no entry of that name exists afterwards). -/
theorem C1_counterexample :
    roundTrip [Entry.dir cxNameBBB8 [Entry.file cxFileBBB8]] cxNameBBB8 =
      .ok (cxBBB8After, false) ∧
    findEntry cxBBB8After cxNameBBB8 = none := ⟨rfl, rfl⟩

/-- C2 (amended).  For a flat folder of files alone in its parent listing:
a forced failure while creating the new outer directory or while creating
the session middle directory is rolled back completely (the temporary
sibling is renamed back and the directory again holds exactly the original
files at its original path); but a forced failure of the final rename into
the inner position leaves the original files under the temporary sibling
and an empty outer/session skeleton at the original path, because the
restore rename finds the original path occupied by a non-empty directory
and itself fails.  No Compatible verification step exists in the code. -/
theorem C2_rollback_partial (nm s : NameT) (files : List Entry) :
    fwdSteps [Entry.dir nm files] nm s (some FwdStep.mkOuter) = [Entry.dir nm files] ∧
    fwdSteps [Entry.dir nm files] nm s (some FwdStep.mkSession) = [Entry.dir nm files] ∧
    fwdSteps [Entry.dir nm files] nm s (some FwdStep.moveInner) =
      [Entry.dir (tempName nm) files, Entry.dir nm [Entry.dir s []]] := by
  have h1 : tempName nm ≠ nm := tempName_ne nm
  have h2 : nm ≠ tempName nm := fun h => h1 h.symm
  refine ⟨?_, ?_, ?_⟩ <;>
    simp [fwdSteps, renameEntry, findEntry, mkdirIn, mkdirInChild, moveTempIn,
      removeEntry, replaceEntry, Entry.name, Entry.withName, restoreTemp, stepRun, h1, h2]

/-- Folder name used by the C2 counterexample. -/
def cxNameA : NameT := "A".toList

/-- Marker file name used by the C2 counterexample. -/
def cxFileA : NameT := "S_A.tsq".toList

/-- Counterexample to C2 as stated: when the final step (renaming the
temporary folder into the inner position) is forced to fail, the directory
afterwards does not contain exactly the original files directly under its
own original path — the files sit under the temporary sibling temp_A and
the original path holds an empty nested skeleton. -/
theorem C2_counterexample :
    fwdSteps [Entry.dir cxNameA [Entry.file cxFileA]] cxNameA cxSessionS
        (some FwdStep.moveInner) ≠
      [Entry.dir cxNameA [Entry.file cxFileA]] := by
  intro h
  have hr : fwdSteps [Entry.dir cxNameA [Entry.file cxFileA]] cxNameA cxSessionS
      (some FwdStep.moveInner) =
      [Entry.dir (tempName cxNameA) [Entry.file cxFileA],
       Entry.dir cxNameA [Entry.dir cxSessionS []]] := rfl
  rw [hr] at h
  exact absurd (congrArg List.length h) (by decide)

/-- First marker file of the C3 scenarios. -/
def cxFileC1 : NameT := "S_C.tsq".toList

/-- Second marker file of the C3 scenarios. -/
def cxFileC2 : NameT := "T_C.tsq".toList

/-- Folder name of the C3 scenarios. -/
def cxNameC : NameT := "C".toList

/-- C3 (amended).  A directory with more than one non-hidden marker file is
not left untouched: the transformer logs a warning, uses the FIRST marker
file for session-name extraction, and transforms the directory with it. -/
theorem C3_multiple_markers_first_used (nm : NameT) (files : List Entry)
    (hnh : isHidden nm = false)
    (hb : containsSub bbb8Sub nm = false)
    (hp : containsSub par0725Sub nm = false)
    (hfb : ∀ e ∈ files, containsSub bbb8Sub e.name = false)
    (hfm : ∀ e ∈ files, containsSub m374Sub e.name = false)
    (hfile : ∀ e ∈ files, e.isFile = true)
    (tf tf2 : Entry) (ts : List Entry)
    (htsq : files.filter (fun e => endsTsq e.name && !isHidden e.name) = tf :: tf2 :: ts)
    (hsn : extract_session_name (pyStem tf.name) nm ≠ []) :
    make_neo_compatible [Entry.dir nm files] nm =
      .ok [Entry.dir nm [Entry.dir (extract_session_name (pyStem tf.name) nm)
        [Entry.dir nm files]]] :=
  make_forward nm files hnh hb hp hfb hfm hfile tf (tf2 :: ts) htsq hsn

/-- Witness for C3: a concrete folder C with the two marker files S_C.tsq
and T_C.tsq is transformed using the session name S extracted from the
first one. -/
theorem C3_multiple_markers_first_used_witness :
    make_neo_compatible
        [Entry.dir cxNameC [Entry.file cxFileC1, Entry.file cxFileC2]] cxNameC =
      .ok [Entry.dir cxNameC [Entry.dir cxSessionS
        [Entry.dir cxNameC [Entry.file cxFileC1, Entry.file cxFileC2]]]] :=
  C3_multiple_markers_first_used cxNameC [Entry.file cxFileC1, Entry.file cxFileC2]
    (by decide) (by decide) (by decide) (by decide) (by decide) (by decide)
    (Entry.file cxFileC1) (Entry.file cxFileC2) [] rfl (by decide)

/-- Number of children of the first entry of a listing (0 when the listing
is empty or starts with a non-directory); used to tell a transformed
directory from an untouched one. -/
def firstChildCount : List Entry → Nat
  | Entry.dir _ cs :: _ => cs.length
  | _ => 0

/-- Counterexample to C3 as stated: the concrete directory C containing the
two non-hidden marker files S_C.tsq and T_C.tsq is NOT left untouched — the
transformer nests it (its single child afterwards is the session directory,
not the two original files). -/
theorem C3_counterexample :
    make_neo_compatible
        [Entry.dir cxNameC [Entry.file cxFileC1, Entry.file cxFileC2]] cxNameC ≠
      .ok [Entry.dir cxNameC [Entry.file cxFileC1, Entry.file cxFileC2]] := by
  intro h
  have hr : make_neo_compatible
      [Entry.dir cxNameC [Entry.file cxFileC1, Entry.file cxFileC2]] cxNameC =
      .ok [Entry.dir cxNameC [Entry.dir cxSessionS
        [Entry.dir cxNameC [Entry.file cxFileC1, Entry.file cxFileC2]]]] := rfl
  rw [hr] at h
  simp only [Except.ok.injEq] at h
  exact absurd (congrArg firstChildCount h) (by decide)

/-- File name t_A.tsq used in the C4 scenario. -/
def cxTA : NameT := "t_A.tsq".toList

/-- Name of the denied (unreadable) subdirectory in the C4 scenario. -/
def cxSubS : NameT := "s".toList

/-- Folder name B used in the C4 scenario. -/
def cxNameB : NameT := "B".toList

/-- File name t_B.tsq used in the C4 scenario. -/
def cxTB : NameT := "t_B.tsq".toList

/-- Root folder name used in concrete scanner scenarios. -/
def cxNameR : NameT := "R".toList

/-- A discovered candidate folder whose classification raises: it holds a
marker file and an unreadable subdirectory, so is_neo_compatible (the
reorganize_data.py copy, without try/except) raises while listing the
subdirectory. -/
def cxDirDeniedA : Entry := Entry.dir cxNameA [Entry.file cxTA, Entry.denied cxSubS]

/-- A second, well-formed sibling candidate folder. -/
def cxDirB : Entry := Entry.dir cxNameB [Entry.file cxTB]

/-- C4 (amended).  The organize loop propagates an exception raised by
make_neo_compatible outside its try block (legacy renames, classification)
and aborts the remaining sibling directories, and reorganize_data prints no
summary; the unorganize loop however processes every discovered folder
independently of earlier outcomes and its summary counts successes over
total found. -/
theorem C4_driver_isolation (parent : List Entry) (n : NameT) (rest : List NameT)
    (folders : List Entry) (g : Entry)
    (h : make_neo_compatible parent n = .error ()) :
    reorganize_loop parent (n :: rest) = .error () ∧
    unorganize_loop (folders ++ [g]) = unorganize_loop folders ++ [unorganize_folder g] ∧
    (unorganize_summary (folders ++ [g])).1 =
      (unorganize_summary folders).1 + (if (unorganize_folder g).ok then 1 else 0) ∧
    (unorganize_summary (folders ++ [g])).2 = (unorganize_summary folders).2 + 1 := by
  refine ⟨?_, ?_, ?_, ?_⟩
  · simp only [reorganize_loop, h]
  · simp [unorganize_loop]
  · by_cases hg : (unorganize_folder g).ok
    · simp [unorganize_summary, unorganize_loop, List.filter_append, hg]
    · simp [unorganize_summary, unorganize_loop, List.filter_append, hg]
  · simp [unorganize_summary]

/-- Witness for C4: with the concrete sibling candidates A (whose
classification raises on a denied subdirectory) and B, the organize loop
aborts, while the unorganize loop and summary process the appended folder
B regardless. -/
theorem C4_driver_isolation_witness :
    reorganize_loop [cxDirDeniedA, cxDirB] [cxNameA, cxNameB] = .error () ∧
    unorganize_loop ([] ++ [cxDirB]) = unorganize_loop [] ++ [unorganize_folder cxDirB] ∧
    (unorganize_summary ([] ++ [cxDirB])).1 =
      (unorganize_summary []).1 + (if (unorganize_folder cxDirB).ok then 1 else 0) ∧
    (unorganize_summary ([] ++ [cxDirB])).2 = (unorganize_summary []).2 + 1 :=
  C4_driver_isolation [cxDirDeniedA, cxDirB] cxNameA [cxNameB] [] cxDirB rfl

/-- Counterexample to C4 as stated: the scanner discovers the two sibling
candidates A and B, but the organize run raises while transforming A (its
classification lists a denied subdirectory outside any try block) and the
loop aborts with the exception instead of continuing with B; no failure
count is ever printed because reorganize_data has no summary. -/
theorem C4_counterexample :
    find_tdt_folders (Entry.dir cxNameR [cxDirDeniedA, cxDirB]) 10 =
      [[cxNameA, cxNameR], [cxNameB, cxNameR]] ∧
    reorganize_loop [cxDirDeniedA, cxDirB] [cxNameA, cxNameB] = .error () :=
  ⟨rfl, rfl⟩

/-- C5 (amended).  The extractor removes EVERY occurrence of the owner name
(first with a leading underscore, then bare) and trims underscores — not
just the first occurrence — and whenever the result is empty the caller
reports an error and leaves the directory untouched.  This theorem proves
the (correct) second half: an empty extraction makes make_neo_compatible
return the parent listing unchanged. -/
theorem C5_empty_name_skips (nm : NameT) (files : List Entry)
    (hnh : isHidden nm = false)
    (hb : containsSub bbb8Sub nm = false)
    (hp : containsSub par0725Sub nm = false)
    (hfb : ∀ e ∈ files, containsSub bbb8Sub e.name = false)
    (hfm : ∀ e ∈ files, containsSub m374Sub e.name = false)
    (hfile : ∀ e ∈ files, e.isFile = true)
    (tf : Entry) (ts : List Entry)
    (htsq : files.filter (fun e => endsTsq e.name && !isHidden e.name) = tf :: ts)
    (hsn : extract_session_name (pyStem tf.name) nm = []) :
    make_neo_compatible [Entry.dir nm files] nm = .ok [Entry.dir nm files] := by
  rw [make_neo_compatible, if_neg (by simp [hnh]), applySpecials_noop nm files hb hp hfb hfm]
  show afterSpecials [Entry.dir nm files] nm = _
  have hfind : findEntry [Entry.dir nm files] nm = some (Entry.dir nm files) := by
    simp [findEntry, Entry.name]
  have hcompat : is_neo_compatible_reorg (Entry.dir nm files) = .ok false := by
    rw [is_neo_compatible_reorg, filter_dirs_of_files files hfile]
  rw [afterSpecials, hfind]
  simp only [hcompat, htsq]
  rw [if_pos hsn]

/-- Marker file whose stem M1M1 strips to the empty session name for folder
M1. -/
def wFileM1M1 : NameT := "M1M1.tsq".toList

/-- Witness for C5: the concrete folder M1 with marker file M1M1.tsq (whose
extraction is empty) is left untouched. -/
theorem C5_empty_name_skips_witness :
    make_neo_compatible [Entry.dir wNameM1 [Entry.file wFileM1M1]] wNameM1 =
      .ok [Entry.dir wNameM1 [Entry.file wFileM1M1]] :=
  C5_empty_name_skips wNameM1 [Entry.file wFileM1M1]
    (by decide) (by decide) (by decide) (by decide) (by decide) (by decide)
    (Entry.file wFileM1M1) [] rfl (by decide)

/-- Stem with two occurrences of the owner name M1, telling replace-all
apart from first-occurrence removal. -/
def cxStemC5 : NameT := "A_M1_B_M1".toList

/-- What the source's replace-all extraction produces on that stem. -/
def cxCodeResC5 : NameT := "A_B".toList

/-- What the spec's first-occurrence removal produces on that stem. -/
def cxSpecResC5 : NameT := "AB_M1".toList

/-- Counterexample to C5 as stated: on the stem A_M1_B_M1 with owner M1 the
source removes BOTH occurrences (giving A_B), while removing only the first
occurrence with its adjacent separators as the claim describes gives
AB_M1; the two disagree. -/
theorem C5_counterexample :
    extract_session_name cxStemC5 wNameM1 = cxCodeResC5 ∧
    extract_session_name_spec cxStemC5 wNameM1 = cxSpecResC5 ∧
    extract_session_name cxStemC5 wNameM1 ≠ extract_session_name_spec cxStemC5 wNameM1 :=
  ⟨rfl, rfl, by decide⟩

/-- C6 (amended).  On a directory whose sole non-hidden child directory has
an unreadable listing, the unorganize_data.py classifier absorbs the error
and returns False (not Compatible), but the reorganize_data.py copy of the
classifier has no try/except and the error propagates (raises). -/
theorem C6_classifier_listing_error (nm sub : NameT) (hs : isHidden sub = false) :
    is_neo_compatible_reorg (Entry.dir nm [Entry.denied sub]) = .error () ∧
    is_neo_compatible_unorg (Entry.dir nm [Entry.denied sub]) = false := by
  constructor <;>
    simp [is_neo_compatible_reorg, is_neo_compatible_unorg, Entry.isDir, Entry.name, hs]

/-- Witness for C6 at the concrete directory A with denied child s. -/
theorem C6_classifier_listing_error_witness :
    is_neo_compatible_reorg (Entry.dir cxNameA [Entry.denied cxSubS]) = .error () ∧
    is_neo_compatible_unorg (Entry.dir cxNameA [Entry.denied cxSubS]) = false :=
  C6_classifier_listing_error cxNameA cxSubS (by decide)

/-- Folder name used only by the C6 counterexample. -/
def cxNameP : NameT := "P".toList

/-- Denied subdirectory name used only by the C6 counterexample. -/
def cxSubQ : NameT := "q".toList

/-- Counterexample to C6 as stated: the reorganize_data.py is_neo_compatible
DOES raise on a permission error — listing the denied child q of the
directory P propagates the error instead of treating the directory as not
Compatible. -/
theorem C6_counterexample :
    is_neo_compatible_reorg (Entry.dir cxNameP [Entry.denied cxSubQ]) = .error () := rfl

/-- A temporary-prefixed name is never a shadow name: it starts with the
letter t, not with the shadow prefix. -/
theorem isHidden_tempName (x : NameT) : isHidden (tempName x) = false := rfl

/-- C7 (amended).  A directory still carrying the reserved temporary prefix
is treated by the scanner like any other directory: when it contains a
marker file it is returned as a candidate (it is not flagged or skipped),
and make_neo_compatible then re-transforms it, nesting the data under the
temp-prefixed name. -/
theorem C7_temp_dir_reprocessed (x rootNm : NameT) (files : List Entry) (m : Nat)
    (htn : endsTsq (tempName x) = false)
    (hasTsq : files.any (fun c => endsTsq c.name) = true)
    (hb : containsSub bbb8Sub (tempName x) = false)
    (hp : containsSub par0725Sub (tempName x) = false)
    (hfb : ∀ e ∈ files, containsSub bbb8Sub e.name = false)
    (hfm : ∀ e ∈ files, containsSub m374Sub e.name = false)
    (hfile : ∀ e ∈ files, e.isFile = true)
    (tf : Entry) (ts : List Entry)
    (htsq : files.filter (fun e => endsTsq e.name && !isHidden e.name) = tf :: ts)
    (hsn : extract_session_name (pyStem tf.name) (tempName x) ≠ []) :
    find_tdt_folders (Entry.dir rootNm [Entry.dir (tempName x) files]) (m + 1) =
      [[tempName x, rootNm]] ∧
    make_neo_compatible [Entry.dir (tempName x) files] (tempName x) =
      .ok [Entry.dir (tempName x)
        [Entry.dir (extract_session_name (pyStem tf.name) (tempName x))
          [Entry.dir (tempName x) files]]] := by
  constructor
  · have h0 : ([Entry.dir (tempName x) files].any (fun c => endsTsq c.name)) = false := by
      simp only [List.any_cons, List.any_nil, Bool.or_false]
      exact htn
    have hfil : ([Entry.dir (tempName x) files].filter
        (fun c => c.isDir && !isHidden c.name)) = [Entry.dir (tempName x) files] := by
      simp [Entry.isDir, Entry.name, isHidden_tempName]
    rw [find_tdt_folders]
    simp only [searchGo, h0, Bool.false_eq_true, if_false, hfil, List.map_cons,
      List.map_nil, hasTsq, if_true, isInnermostRP, List.flatten]
    simp [dedupGo, Entry.name]
  · exact make_forward (tempName x) files (isHidden_tempName x) hb hp hfb hfm hfile
      tf ts htsq hsn

/-- Inner folder name of the C7 witness. -/
def wNameW : NameT := "W".toList

/-- Marker file of the C7 witness. -/
def wFileSW : NameT := "S_W.tsq".toList

/-- Witness for C7: the concrete tree R containing temp_W (holding marker
S_W.tsq) makes the scanner return the temp-prefixed directory, which the
transformer then re-nests. -/
theorem C7_temp_dir_reprocessed_witness :
    find_tdt_folders (Entry.dir cxNameR [Entry.dir (tempName wNameW)
        [Entry.file wFileSW]]) 10 =
      [[tempName wNameW, cxNameR]] ∧
    make_neo_compatible [Entry.dir (tempName wNameW) [Entry.file wFileSW]]
        (tempName wNameW) =
      .ok [Entry.dir (tempName wNameW)
        [Entry.dir (extract_session_name (pyStem (Entry.file wFileSW).name)
            (tempName wNameW))
          [Entry.dir (tempName wNameW) [Entry.file wFileSW]]]] :=
  C7_temp_dir_reprocessed wNameW cxNameR [Entry.file wFileSW] 9
    (by decide) (by decide) (by decide) (by decide) (by decide) (by decide)
    (by decide) (Entry.file wFileSW) [] rfl (by decide)

/-- Inner folder name of the C7 counterexample. -/
def cxNameX : NameT := "X".toList

/-- Marker file of the C7 counterexample. -/
def cxFileSX : NameT := "S_X.tsq".toList

/-- Session name the transformer extracts inside temp_X (the folder name
temp_X does not occur in the stem S_X, so nothing is removed). -/
def cxSessionSX : NameT := "S_X".toList

/-- Counterexample to C7 as stated: the directory temp_X (a leftover of an
interrupted run, still under the reserved temporary prefix) containing the
marker S_X.tsq is returned by the scanner as an ordinary Flat candidate,
and make_neo_compatible silently re-transforms it — nesting the data as
temp_X/S_X/temp_X — instead of treating it as Indeterminate and surfacing
it for manual resolution. -/
theorem C7_counterexample :
    find_tdt_folders (Entry.dir cxNameR [Entry.dir (tempName cxNameX)
        [Entry.file cxFileSX]]) 10 =
      [[tempName cxNameX, cxNameR]] ∧
    make_neo_compatible [Entry.dir (tempName cxNameX) [Entry.file cxFileSX]]
        (tempName cxNameX) =
      .ok [Entry.dir (tempName cxNameX) [Entry.dir cxSessionSX
        [Entry.dir (tempName cxNameX) [Entry.file cxFileSX]]]] :=
  ⟨rfl, rfl⟩

/-- Moving a block of non-hidden, non-colliding, distinct items commutes
with appending them to the top listing. -/
theorem moveLoop_movable (top pre bs : List Entry)
    (h1 : ∀ i ∈ pre, isHidden i.name = false)
    (h2 : ∀ i ∈ pre, findEntry top i.name = none)
    (h3 : (pre.map Entry.name).Nodup) :
    moveLoop top (pre ++ bs) = moveLoop (top ++ pre) bs := by
  induction pre generalizing top with
  | nil => simp
  | cons i rest ih =>
    have hi1 : isHidden i.name = false := h1 i (by simp)
    have hi2 : findEntry top i.name = none := h2 i (by simp)
    rw [List.map_cons, List.nodup_cons] at h3
    have hrec := ih (top ++ [i]) (fun j hj => h1 j (by simp [hj]))
      (fun j hj => by
        rw [findEntry_append, h2 j (by simp [hj])]
        simp only [findEntry]
        have hne : i.name ≠ j.name := fun hc =>
          h3.1 (hc ▸ List.mem_map_of_mem Entry.name hj)
        simp [hne])
      h3.2
    simp only [List.cons_append, moveLoop, hi1, Bool.false_eq_true, if_false, hi2,
      Option.isSome_none]
    refine hrec.trans ?_
    simp [List.append_assoc]

/-- C8 (confirmed).  A Compatible directory whose inner data folder holds a
file x that also exists at the top level: the inverse transformer skips the
inner x with exactly one collision warning (leaving both copies intact),
moves all other items up, reports the failed removal of the now-non-empty
nested directories only as a warning, and still returns success. -/
theorem C8_collision_keeps_both (nm sn x : NameT) (pre post : List Entry)
    (hnh : isHidden nm = false) (hsh : isHidden sn = false)
    (hxh : isHidden x = false) (hsx : sn ≠ x)
    (hpre_h : ∀ e ∈ pre, isHidden e.name = false)
    (hpost_h : ∀ e ∈ post, isHidden e.name = false)
    (hpre_s : ∀ e ∈ pre, e.name ≠ sn) (hpost_s : ∀ e ∈ post, e.name ≠ sn)
    (hpre_x : ∀ e ∈ pre, e.name ≠ x) (hpost_x : ∀ e ∈ post, e.name ≠ x)
    (hpre_nod : (pre.map Entry.name).Nodup) (hpost_nod : (post.map Entry.name).Nodup)
    (hdisj : ∀ e ∈ post, e.name ∉ pre.map Entry.name) :
    unorganize_folder (Entry.dir nm
        [Entry.dir sn [Entry.dir nm (pre ++ Entry.file x :: post)], Entry.file x]) =
      ⟨Entry.dir nm (Entry.dir sn [Entry.dir nm [Entry.file x]] ::
          Entry.file x :: (pre ++ post)), true, 1, true⟩ := by
  have h2pre : ∀ i ∈ pre, findEntry
      [Entry.dir sn [Entry.dir nm (pre ++ Entry.file x :: post)], Entry.file x]
      i.name = none := fun i hi => (findEntry_eq_none _ _).mpr (by
    intro e he
    simp only [List.mem_cons, List.not_mem_nil, or_false] at he
    rcases he with rfl | rfl
    · show sn ≠ i.name
      exact fun h => hpre_s i hi h.symm
    · show x ≠ i.name
      exact fun h => hpre_x i hi h.symm)
  have key : moveLoop
      [Entry.dir sn [Entry.dir nm (pre ++ Entry.file x :: post)], Entry.file x]
      (pre ++ Entry.file x :: post) =
      (Entry.dir sn [Entry.dir nm (pre ++ Entry.file x :: post)] :: Entry.file x ::
        (pre ++ post), [Entry.file x], 1) := by
    rw [moveLoop_movable _ pre _ hpre_h h2pre hpre_nod]
    have hfx : (findEntry
        ([Entry.dir sn [Entry.dir nm (pre ++ Entry.file x :: post)], Entry.file x]
          ++ pre) x).isSome = true := by
      rw [findEntry_append]
      simp [findEntry, Entry.name, hsx]
    have hall : moveLoop
        ([Entry.dir sn [Entry.dir nm (pre ++ Entry.file x :: post)], Entry.file x]
          ++ pre) post =
        (([Entry.dir sn [Entry.dir nm (pre ++ Entry.file x :: post)], Entry.file x]
          ++ pre) ++ post, [], 0) :=
      moveLoop_all _ post hpost_h
        (fun j hj => by
          rw [findEntry_append]
          have e1 : findEntry
              [Entry.dir sn [Entry.dir nm (pre ++ Entry.file x :: post)],
               Entry.file x] j.name = none := (findEntry_eq_none _ _).mpr (by
            intro e he
            simp only [List.mem_cons, List.not_mem_nil, or_false] at he
            rcases he with rfl | rfl
            · show sn ≠ j.name
              exact fun h => hpost_s j hj h.symm
            · show x ≠ j.name
              exact fun h => hpost_x j hj h.symm)
          have e2 : findEntry pre j.name = none := (findEntry_eq_none _ _).mpr
            (fun e he hc => hdisj j hj (hc ▸ List.mem_map_of_mem Entry.name he))
          simp only [e1, e2])
        hpost_nod
    simp only [moveLoop, Entry.name, hxh, Bool.false_eq_true, if_false, hfx,
      if_true, hall]
    simp [List.append_assoc]
  simp [unorganize_folder, Entry.isDir, Entry.name, hsh, hnh, key, replaceEntry]

/-- Outer folder name of the C8 and C10 witnesses. -/
def cxNameN : NameT := "N".toList

/-- Colliding file name of the C8 witness. -/
def cxFileX : NameT := "x".toList

/-- Non-colliding file name of the C8 and C10 witnesses. -/
def cxFileY : NameT := "y".toList

/-- Witness for C8: the concrete Compatible directory N containing S/N with
inner files x and y, where an x also exists at the top level: y is moved up,
the inner x stays, one collision warning is emitted, the directory removal
warning fires, and the call still succeeds. -/
theorem C8_collision_keeps_both_witness :
    unorganize_folder (Entry.dir cxNameN
        [Entry.dir cxSessionS [Entry.dir cxNameN
          ([] ++ Entry.file cxFileX :: [Entry.file cxFileY])], Entry.file cxFileX]) =
      ⟨Entry.dir cxNameN (Entry.dir cxSessionS [Entry.dir cxNameN [Entry.file cxFileX]] ::
          Entry.file cxFileX :: ([] ++ [Entry.file cxFileY])), true, 1, true⟩ :=
  C8_collision_keeps_both cxNameN cxSessionS cxFileX [] [Entry.file cxFileY]
    (by decide) (by decide) (by decide) (by decide) (by decide) (by decide)
    (by decide) (by decide) (by decide) (by decide) (by decide) (by decide)
    (by decide)

/-- Every path returned by the scanner body has length at most the reversed
path length plus the gas minus one (the gas counts the remaining depth
budget including the current level). -/
theorem searchGo_depth (g : Nat) : ∀ (e : Entry) (rp : List NameT) (p : List NameT),
    p ∈ searchGo g e rp → p.length ≤ rp.length + g - 1 := by
  induction g with
  | zero =>
    intro e rp p hp
    simp [searchGo] at hp
  | succ k ih =>
    intro e rp p hp
    cases e with
    | file n => simp [searchGo] at hp
    | denied n => simp [searchGo] at hp
    | dir n cs =>
      simp only [searchGo] at hp
      by_cases h : (cs.any (fun c => endsTsq c.name)) = true
      · rw [if_pos h] at hp
        by_cases h2 : isInnermostRP rp = true
        · rw [if_pos h2] at hp
          rw [List.mem_singleton] at hp
          subst hp
          have hd : (rp.drop 2).length = rp.length - 2 := List.length_drop 2 rp
          omega
        · rw [if_neg h2] at hp
          rw [List.mem_singleton] at hp
          subst hp
          omega
      · rw [if_neg h] at hp
        simp only [List.mem_flatten, List.mem_map] at hp
        obtain ⟨l, ⟨c, hc, rfl⟩, hpl⟩ := hp
        have hb := ih c (c.name :: rp) p hpl
        simp only [List.length_cons] at hb
        omega

/-- Deduplication only drops elements, it never invents one. -/
theorem mem_dedupGo (p : List NameT) : ∀ (seen l : List (List NameT)),
    p ∈ dedupGo seen l → p ∈ l := by
  intro seen l
  induction l generalizing seen with
  | nil => simp [dedupGo]
  | cons q rest ih =>
    intro hp
    rw [dedupGo] at hp
    by_cases h : q ∈ seen
    · rw [if_pos h] at hp
      exact List.mem_cons_of_mem q (ih _ hp)
    · rw [if_neg h] at hp
      rcases List.mem_cons.mp hp with h1 | h1
      · rw [h1]
        exact List.mem_cons_self q rest
      · exact List.mem_cons_of_mem q (ih _ h1)

/-- C9 (confirmed).  The scanner is a total function (the Lean model
terminates by construction, mirroring the strict depth cut-off that
prevents unbounded recursion in the source), and every returned directory
was found at depth at most maxDepth: its reversed path, which includes the
root's own name, has length at most maxDepth + 1. -/
theorem C9_depth_bound (root : Entry) (maxDepth : Nat) (p : List NameT)
    (hp : p ∈ find_tdt_folders root maxDepth) :
    p.length ≤ maxDepth + 1 := by
  rw [find_tdt_folders] at hp
  have h1 := mem_dedupGo p [] _ hp
  have h2 := searchGo_depth (maxDepth + 1) root [root.name] p h1
  simp only [List.length_cons, List.length_nil] at h2
  omega

/-- Chain of folder names of the C9 witness tree. -/
def wNameTa : NameT := "ta".toList

/-- Second-level folder name of the C9 witness tree. -/
def wNameTb : NameT := "tb".toList

/-- Third-level folder name of the C9 witness tree. -/
def wNameTc : NameT := "tc".toList

/-- Leaf folder name of the C9 witness tree. -/
def wNameTd : NameT := "td".toList

/-- Marker file of the C9 witness tree. -/
def wFileT : NameT := "t.tsq".toList

/-- Depth-4 witness tree for C9. -/
def wDeepTree : Entry :=
  Entry.dir wNameTa [Entry.dir wNameTb [Entry.dir wNameTc
    [Entry.dir wNameTd [Entry.file wFileT]]]]

/-- Witness for C9: the marker folder found at depth 3 of the concrete tree
has reversed path length 4, within the bound maxDepth + 1 for maxDepth 3. -/
theorem C9_depth_bound_witness :
    ([wNameTd, wNameTc, wNameTb, wNameTa] : List NameT).length ≤ 3 + 1 :=
  C9_depth_bound wDeepTree 3 [wNameTd, wNameTc, wNameTb, wNameTa] (by decide)

/-- C10 (confirmed).  A Compatible directory whose inner data folder holds
an entry with the shadow prefix: the inverse transformer never moves that
entry up — it stays inside the inner folder — so the removal of the
now-non-empty inner and middle directories fails and is reported only as a
non-fatal warning, no collision warning is emitted for it, and
unorganize_folder still returns success. -/
theorem C10_hidden_stays_inside (nm sn hx : NameT) (pre post : List Entry)
    (hnh : isHidden nm = false) (hsh : isHidden sn = false)
    (hhx : isHidden hx = true)
    (hpre_h : ∀ e ∈ pre, isHidden e.name = false)
    (hpost_h : ∀ e ∈ post, isHidden e.name = false)
    (hpre_s : ∀ e ∈ pre, e.name ≠ sn) (hpost_s : ∀ e ∈ post, e.name ≠ sn)
    (hpre_nod : (pre.map Entry.name).Nodup) (hpost_nod : (post.map Entry.name).Nodup)
    (hdisj : ∀ e ∈ post, e.name ∉ pre.map Entry.name) :
    unorganize_folder (Entry.dir nm
        [Entry.dir sn [Entry.dir nm (pre ++ Entry.file hx :: post)]]) =
      ⟨Entry.dir nm (Entry.dir sn [Entry.dir nm [Entry.file hx]] :: (pre ++ post)),
        true, 0, true⟩ := by
  have h2pre : ∀ i ∈ pre, findEntry
      [Entry.dir sn [Entry.dir nm (pre ++ Entry.file hx :: post)]] i.name = none :=
    fun i hi => (findEntry_eq_none _ _).mpr (by
      intro e he
      rw [List.mem_singleton] at he
      subst he
      show sn ≠ i.name
      exact fun h => hpre_s i hi h.symm)
  have key : moveLoop
      [Entry.dir sn [Entry.dir nm (pre ++ Entry.file hx :: post)]]
      (pre ++ Entry.file hx :: post) =
      (Entry.dir sn [Entry.dir nm (pre ++ Entry.file hx :: post)] :: (pre ++ post),
        [Entry.file hx], 0) := by
    rw [moveLoop_movable _ pre _ hpre_h h2pre hpre_nod]
    have hall : moveLoop
        ([Entry.dir sn [Entry.dir nm (pre ++ Entry.file hx :: post)]] ++ pre) post =
        (([Entry.dir sn [Entry.dir nm (pre ++ Entry.file hx :: post)]] ++ pre)
          ++ post, [], 0) :=
      moveLoop_all _ post hpost_h
        (fun j hj => by
          rw [findEntry_append]
          have e1 : findEntry
              [Entry.dir sn [Entry.dir nm (pre ++ Entry.file hx :: post)]]
              j.name = none := (findEntry_eq_none _ _).mpr (by
            intro e he
            rw [List.mem_singleton] at he
            subst he
            show sn ≠ j.name
            exact fun h => hpost_s j hj h.symm)
          have e2 : findEntry pre j.name = none := (findEntry_eq_none _ _).mpr
            (fun e he hc => hdisj j hj (hc ▸ List.mem_map_of_mem Entry.name he))
          simp only [e1, e2])
        hpost_nod
    simp only [moveLoop, Entry.name, hhx, if_true, hall]
    simp [List.append_assoc]
  simp [unorganize_folder, Entry.isDir, Entry.name, hsh, hnh, key, replaceEntry]

/-- Hidden file name of the C10 witness. -/
def cxFileHidden : NameT := "._h".toList

/-- Witness for C10: in the concrete Compatible directory N containing
S/N with inner entries ._h and y, the shadow entry ._h stays inside the
inner folder, y moves up, the rmdir warning fires with zero collision
warnings, and the call returns success. -/
theorem C10_hidden_stays_inside_witness :
    unorganize_folder (Entry.dir cxNameN
        [Entry.dir cxSessionS [Entry.dir cxNameN
          ([] ++ Entry.file cxFileHidden :: [Entry.file cxFileY])]]) =
      ⟨Entry.dir cxNameN (Entry.dir cxSessionS [Entry.dir cxNameN
          [Entry.file cxFileHidden]] :: ([] ++ [Entry.file cxFileY])),
        true, 0, true⟩ :=
  C10_hidden_stays_inside cxNameN cxSessionS cxFileHidden [] [Entry.file cxFileY]
    (by decide) (by decide) (by decide) (by decide) (by decide) (by decide)
    (by decide) (by decide) (by decide) (by decide)
